import Mathlib

/-!
Shallow embedding of the lista_compras shopping-list application.

The definitions below are translated from the TypeScript sources:
  * `src/App.tsx` — the main component: `calculateTotal`, `addItem`,
    `toggleItemCheck`, `updatePrice`, `handlePriceKeyPress`,
    `formatPriceInput`, `handlePriceInputChange`, `updateQuantity`,
    `saveEdit`, `confirmDelete` / `deleteItem` / `handleDelete`,
    `handleRemoteUpdate`, the 15-day purge effect, `saveList` and
    `deleteListHandler`;
  * the `useSharedList` hook (`loadList`, `updateList`, and the
    `postgres_changes` subscription handler).

Conventions of the embedding:
  * JavaScript numbers are modelled as `ℚ` (prices, totals) and `ℤ`
    (quantities); the claims under verification do not depend on binary
    floating-point rounding.
  * The display-only `priceDisplay` field of `GroceryItem` is omitted: it
    never influences items, totals, or persistence.
  * Asynchronous effects are modelled by passing the outcome of the remote
    call (`PersistResult`, `FetchResult`, `InsertResult`) as an explicit
    argument, and by returning the data written to the remote store as part
    of the result.
-/

/-- Model of a grocery item (interface `GroceryItem` in `src/types.ts`,
without the display-only `priceDisplay` field). -/
structure GroceryItem where
  id : String
  name : String
  price : ℚ
  quantity : ℤ
  createdAt : String
  checked : Bool
  deriving DecidableEq, Repr

/-- Model of a shopping list (interface `ShoppingList` in `src/types.ts`). -/
structure ShoppingList where
  id : String
  name : String
  items : List GroceryItem
  createdAt : String
  total : ℚ
  deriving DecidableEq, Repr

/-- Embedding of `calculateTotal` from `App.tsx`:
`items.reduce((sum, item) => sum + (item.price * item.quantity), 0)`. -/
def calculateTotal (items : List GroceryItem) : ℚ :=
  items.foldl (fun sum item => sum + item.price * (item.quantity : ℚ)) 0

/-- The optional `itemData` argument of `addItem` in `App.tsx`. -/
structure ItemData where
  name : String
  price : ℚ
  deriving DecidableEq, Repr

/-- Model of JavaScript `toLowerCase()` on the ASCII names this app
handles: lowercases every character. -/
def jsToLower (s : String) : String :=
  String.mk (s.data.map Char.toLower)

/-- Model of JavaScript `trim()`: strips whitespace from both ends. -/
def jsTrim (s : String) : String :=
  String.mk (((s.data.dropWhile Char.isWhitespace).reverse.dropWhile Char.isWhitespace).reverse)

/-- Embedding of `itemData?.name || newItemName.trim()` in `addItem`:
an absent or empty (falsy) `itemData.name` falls back to the trimmed
search-box text; a non-empty `itemData.name` is used verbatim (it is NOT
trimmed). -/
def addItemName (itemData : Option ItemData) (newItemName : String) : String :=
  match itemData with
  | some d => if d.name = "" then jsTrim newItemName else d.name
  | none => jsTrim newItemName

/-- Embedding of `itemData?.price || 0` in `addItem`. On rationals the
`|| 0` guard maps an absent price to `0` and is the identity on present
prices (`0 || 0` is `0`). -/
def addItemPrice (itemData : Option ItemData) : ℚ :=
  match itemData with
  | some d => d.price
  | none => 0

/-- Embedding of `addItem` from `App.tsx`. Returns the updated list state
together with the item written to the remote store (`syncItem` plus the
dispatched broadcast event), or `none` when the early returns fire and no
state change or remote write happens. `freshId` stands for
`crypto.randomUUID()` and `ts` for `new Date().toISOString()`. -/
def addItem (st : ShoppingList) (newItemName : String) (itemData : Option ItemData)
    (freshId ts : String) : ShoppingList × Option GroceryItem :=
  let itemName := addItemName itemData newItemName
  if itemName = "" then (st, none)
  else
    let existingItem := st.items.find? (fun item => jsToLower item.name == jsToLower itemName)
    if existingItem.isSome && itemData.isNone then (st, none)
    else
      let newItem : GroceryItem :=
        { id := freshId, name := itemName, price := addItemPrice itemData,
          quantity := 1, createdAt := ts, checked := false }
      let updatedItems := st.items ++ [newItem]
      ({ st with items := updatedItems, total := calculateTotal updatedItems }, some newItem)

/-- Embedding of `toggleItemCheck` from `App.tsx`: flips `checked` on the
matching item; the `total` field is NOT recomputed by this handler. -/
def toggleItemCheck (st : ShoppingList) (id : String) : ShoppingList :=
  let updatedItems := st.items.map (fun item =>
    if item.id = id then { item with checked := !item.checked } else item)
  { st with items := updatedItems }

/-- Accumulates a digit list into a natural number, the way repeated
`10 * n + digit` does; used to model `parseInt` and `parseFloat`. -/
def digitsToNat (cs : List Char) : Nat :=
  cs.foldl (fun n c => 10 * n + (c.toNat - 48)) 0

/-- Parses an unsigned decimal literal `digits[.digits]` read from the
front of the character list, ignoring any trailing characters, as
JavaScript `parseFloat` does; `none` models a `NaN` result. -/
def parseFloatDigits (cs : List Char) : Option ℚ :=
  let intPart := cs.takeWhile (fun c => c.isDigit)
  let rest := cs.dropWhile (fun c => c.isDigit)
  let fracPart :=
    match rest with
    | '.' :: r => r.takeWhile (fun c => c.isDigit)
    | _ => []
  if intPart.isEmpty && fracPart.isEmpty then none
  else some ((digitsToNat intPart : ℚ) + (digitsToNat fracPart : ℚ) / ((10 : ℚ) ^ fracPart.length))

/-- Model of JavaScript `parseFloat` on strings of the form
`[+|-]digits[.digits]<anything>`: an optional sign followed by a decimal
literal; anything unparsable yields `none` (`NaN`). Exponent notation and
leading whitespace are outside the inputs exercised by this app's price
fields and are not modelled. -/
def parseFloatQ (s : String) : Option ℚ :=
  match s.data with
  | '-' :: rest => (parseFloatDigits rest).map (fun q => -q)
  | '+' :: rest => parseFloatDigits rest
  | cs => parseFloatDigits cs

/-- Embedding of the `parseFloat(x) || 0` idiom: a `NaN` parse collapses
to `0` (and `0 || 0` is `0`). -/
def parseFloatOrZero (s : String) : ℚ :=
  (parseFloatQ s).getD 0

/-- Replaces the first comma of the character list by a dot, the way
JavaScript `price.replace(',', '.')` (first occurrence only) does. -/
def replaceFirstComma : List Char → List Char
  | [] => []
  | c :: cs => if c = ',' then '.' :: cs else c :: replaceFirstComma cs

/-- String wrapper around `replaceFirstComma`. -/
def commaToDot (s : String) : String :=
  String.mk (replaceFirstComma s.data)

/-- Embedding of `updatePrice` from `App.tsx`:
`parseFloat(price) || 0`, applied to the matching item, total recomputed. -/
def updatePrice (st : ShoppingList) (id : String) (price : String) : ShoppingList :=
  let numPrice := parseFloatOrZero price
  let updatedItems := st.items.map (fun item =>
    if item.id = id then { item with price := numPrice } else item)
  { st with items := updatedItems, total := calculateTotal updatedItems }

/-- Embedding of the Enter-key branch of `handlePriceKeyPress` from
`App.tsx`: `parseFloat(price.replace(',', '.')) || 0`, the matching item
gets the parsed price and `checked := true`, total recomputed. -/
def handlePriceKeyPress (st : ShoppingList) (id : String) (price : String) : ShoppingList :=
  let numPrice := parseFloatOrZero (commaToDot price)
  let updatedItems := st.items.map (fun item =>
    if item.id = id then { item with price := numPrice, checked := true } else item)
  { st with items := updatedItems, total := calculateTotal updatedItems }

/-- Pads a natural number below 100 to two digits, the way
`centavos.toString().padStart(2, '0')` does. -/
def pad2 (n : Nat) : String :=
  if n < 10 then "0" ++ toString n else toString n

/-- Embedding of `formatPriceInput` from `App.tsx`: keeps only digit
characters, reads them as an integer amount of cents and renders
`reais,centavos`. -/
def formatPriceInput (value : String) : String :=
  let numericDigits := value.data.filter (fun c => c.isDigit)
  if numericDigits.isEmpty then ""
  else
    let cents := digitsToNat numericDigits
    let reais := cents / 100
    let centavos := cents % 100
    if cents < 100 then "0," ++ pad2 centavos
    else toString reais ++ "," ++ pad2 centavos

/-- Embedding of `handlePriceInputChange` from `App.tsx`: the raw input is
digit-filtered and formatted by `formatPriceInput`, then parsed with
`parseFloat(formattedValue.replace(',', '.')) || 0`; the matching item gets
the parsed price, total recomputed. -/
def handlePriceInputChange (st : ShoppingList) (id : String) (inputValue : String) : ShoppingList :=
  let numericValue := parseFloatOrZero (commaToDot (formatPriceInput inputValue))
  let updatedItems := st.items.map (fun item =>
    if item.id = id then { item with price := numericValue } else item)
  { st with items := updatedItems, total := calculateTotal updatedItems }

/-- The per-item transformation inside `updateQuantity` from `App.tsx`:
on the matching id, compute `quantity ± 1`; a result below 1 leaves the
item untouched. -/
def uqItem (id : String) (increment : Bool) (item : GroceryItem) : GroceryItem :=
  if item.id = id then
    let newQuantity := if increment then item.quantity + 1 else item.quantity - 1
    if newQuantity < 1 then item else { item with quantity := newQuantity }
  else item

/-- Embedding of `updateQuantity` from `App.tsx`. -/
def updateQuantity (st : ShoppingList) (id : String) (increment : Bool) : ShoppingList :=
  let updatedItems := st.items.map (uqItem id increment)
  { st with items := updatedItems, total := calculateTotal updatedItems }

/-- Embedding of `saveEdit` from `App.tsx`: renames the item being edited
to the trimmed editor text; empty ids or blank names are no-ops; the
`total` field is not recomputed (names do not enter the total). -/
def saveEdit (st : ShoppingList) (editingId : Option String) (editingName : String) : ShoppingList :=
  match editingId with
  | none => st
  | some eid =>
    if jsTrim editingName = "" then st
    else
      { st with items := st.items.map (fun item =>
          if item.id = eid then { item with name := jsTrim editingName } else item) }

/-- State of the item-deletion confirmation modal in `App.tsx`. -/
structure DeleteModalState where
  isOpen : Bool
  itemId : Option String
  itemName : String
  deriving DecidableEq, Repr

/-- Embedding of `confirmDelete` from `App.tsx`: opens the confirmation
modal for the given item; the list itself is untouched. -/
def confirmDelete (item : GroceryItem) : DeleteModalState :=
  { isOpen := true, itemId := some item.id, itemName := item.name }

/-- Embedding of `deleteItem` from `App.tsx`: removes the items with the
given id and recomputes the total. -/
def deleteItem (st : ShoppingList) (id : String) : ShoppingList :=
  let updatedItems := st.items.filter (fun item => item.id != id)
  { st with items := updatedItems, total := calculateTotal updatedItems }

/-- Embedding of `handleDelete` from `App.tsx`: a confirmed modal deletes
the stored item id and closes the modal; a modal without an item id is a
no-op. -/
def handleDelete (st : ShoppingList) (modal : DeleteModalState) : ShoppingList × DeleteModalState :=
  match modal.itemId with
  | none => (st, modal)
  | some id => (deleteItem st id, { isOpen := false, itemId := none, itemName := "" })

/-- Embedding of the minus-button click handler in `App.tsx`:
`item.quantity === 1 ? confirmDelete(item) : updateQuantity(item.id, false)`.
At quantity 1 the click only raises the confirmation modal; otherwise it
decrements. -/
def minusButtonClick (st : ShoppingList) (modal : DeleteModalState) (item : GroceryItem) :
    ShoppingList × DeleteModalState :=
  if item.quantity = 1 then (st, confirmDelete item)
  else (updateQuantity st item.id false, modal)

/-- Payload variants of the `realtime-update` window events handled by the
`handleRemoteUpdate` listener in `App.tsx`. -/
inductive RemoteEventData where
  | itemAdded (listId : String) (item : GroceryItem)
  | itemUpdated (listId : String) (item : GroceryItem)
  | itemDeleted (listId : String) (itemId : String)
  | listUpdated (list : ShoppingList)
  deriving DecidableEq, Repr

/-- A `realtime-update` event: its declared origin and its payload. -/
structure RemoteEvent where
  userId : String
  data : RemoteEventData
  deriving DecidableEq, Repr

/-- Embedding of `handleRemoteUpdate` from `App.tsx`: events declaring the
local `userId` as origin return immediately; `item_added` appends if the id
is new, `item_updated` replaces by id, `item_deleted` filters by id (each
recomputing the total); `list_updated` replaces the whole list state with
the event payload; events for other list ids are ignored. -/
def handleRemoteUpdate (userId : String) (event : RemoteEvent) (st : ShoppingList) : ShoppingList :=
  if event.userId = userId then st
  else
    match event.data with
    | RemoteEventData.itemAdded listId item =>
      if listId = st.id then
        if st.items.any (fun it => it.id == item.id) then st
        else
          let updatedItems := st.items ++ [item]
          { st with items := updatedItems, total := calculateTotal updatedItems }
      else st
    | RemoteEventData.itemUpdated listId item =>
      if listId = st.id then
        let updatedItems := st.items.map (fun it => if it.id = item.id then item else it)
        { st with items := updatedItems, total := calculateTotal updatedItems }
      else st
    | RemoteEventData.itemDeleted listId itemId =>
      if listId = st.id then
        let updatedItems := st.items.filter (fun it => it.id != itemId)
        { st with items := updatedItems, total := calculateTotal updatedItems }
      else st
    | RemoteEventData.listUpdated l =>
      if l.id = st.id then l else st

/-- One mutation step of the in-memory `currentList` state, covering every
handler of `App.tsx` that touches the item collection. The `remote`
constructor records that a wholesale `list_updated` snapshot is the list
state of a peer client running the same code, hence satisfies the total
invariant (within the app the payload is built from a peer's
`currentList`). -/
inductive AppStep : ShoppingList → ShoppingList → Prop where
  | add (st : ShoppingList) (newName : String) (itemData : Option ItemData) (fid ts : String) :
      AppStep st (addItem st newName itemData fid ts).1
  | quantity (st : ShoppingList) (id : String) (inc : Bool) :
      AppStep st (updateQuantity st id inc)
  | price (st : ShoppingList) (id s : String) :
      AppStep st (updatePrice st id s)
  | priceKey (st : ShoppingList) (id s : String) :
      AppStep st (handlePriceKeyPress st id s)
  | priceInput (st : ShoppingList) (id s : String) :
      AppStep st (handlePriceInputChange st id s)
  | toggle (st : ShoppingList) (id : String) :
      AppStep st (toggleItemCheck st id)
  | edit (st : ShoppingList) (eid : Option String) (name : String) :
      AppStep st (saveEdit st eid name)
  | del (st : ShoppingList) (id : String) :
      AppStep st (deleteItem st id)
  | remote (st : ShoppingList) (uid : String) (e : RemoteEvent)
      (hsnap : ∀ l, e.data = RemoteEventData.listUpdated l → l.total = calculateTotal l.items) :
      AppStep st (handleRemoteUpdate uid e st)

/-- Fifteen days in milliseconds; `fifteenDaysAgo` in the purge effect of
`App.tsx` is the current time minus this span (modelling
`setDate(getDate() - 15)` as exact millisecond arithmetic). -/
def fifteenDaysMs : ℤ := 1296000000

/-- Operations of `App.tsx` on the saved-lists history collection:
`saveList` appends, `deleteListHandler` filters by id, and the mount-time
purge effect keeps only lists newer than fifteen days. `dateValue` stands
for `new Date(s).getTime()` and `now` for the current epoch millis. -/
inductive ListsOp where
  | save (l : ShoppingList)
  | deleteList (listId : String)
  | purge (dateValue : String → ℤ) (now : ℤ)

/-- Applies a saved-lists operation, following `setLists(prev => ...)` in
`saveList`, `deleteListHandler` and the purge effect of `App.tsx`. -/
def applyListsOp : ListsOp → List ShoppingList → List ShoppingList
  | ListsOp.save l, ls => ls ++ [l]
  | ListsOp.deleteList lid, ls => ls.filter (fun l => l.id != lid)
  | ListsOp.purge dateValue now, ls =>
      ls.filter (fun l => decide (now - fifteenDaysMs < dateValue l.createdAt))

/-- Model of the `SharedList` row mirrored by the `useSharedList` hook. -/
structure SharedList where
  id : String
  items : List GroceryItem
  updated_at : String
  deriving DecidableEq, Repr

/-- A row of the hosted `lists` table as delivered to the client; the
`items` column is nullable (`data.items || []` guards in the hook). -/
structure DbRow where
  id : String
  items : Option (List GroceryItem)
  updated_at : String
  deriving DecidableEq, Repr

/-- Event types of a `postgres_changes` notification. -/
inductive PgEventType where
  | INSERT
  | UPDATE
  | DELETE
  deriving DecidableEq, Repr

/-- A `postgres_changes` payload: its event type and its `new` row. -/
structure PgPayload where
  eventType : PgEventType
  new : Option DbRow
  deriving DecidableEq, Repr

/-- Embedding of the subscription callback of `useSharedList`
(`if (payload.new && payload.eventType !== 'DELETE') setList({...})`):
every non-DELETE payload carrying a `new` row replaces the in-memory list
wholesale; no timestamp or version is consulted. -/
def onPostgresChange (payload : PgPayload) (st : Option SharedList) : Option SharedList :=
  match payload.new with
  | some row =>
    if payload.eventType = PgEventType.DELETE then st
    else some { id := row.id, items := row.items.getD [], updated_at := row.updated_at }
  | none => st

/-- In-memory state of the `useSharedList` hook: the mirrored list and the
last-error field. -/
structure SharedState where
  list : Option SharedList
  error : Option String
  deriving DecidableEq, Repr

/-- Outcome of the awaited `supabase.update` call in `updateList`. -/
inductive PersistResult where
  | ok
  | err (msg : String)
  deriving DecidableEq, Repr

/-- Embedding of `updateList` from `useSharedList`: the remote persist is
awaited FIRST; only when it succeeds is `setList` called with the new
items (and a fresh `updated_at`); when it fails, the catch block sets the
error field and the in-memory list is left as it was. -/
def updateList (res : PersistResult) (items : List GroceryItem) (ts : String)
    (st : SharedState) : SharedState :=
  match res with
  | PersistResult.ok =>
      { st with list := st.list.map (fun l => { l with items := items, updated_at := ts }) }
  | PersistResult.err msg => { st with error := some msg }

/-- Outcome of the initial `select ... single()` fetch in `loadList`:
a row, a PGRST116 not-found, or any other error. -/
inductive FetchResult where
  | found (row : DbRow)
  | notFound
  | failure (msg : String)
  deriving DecidableEq, Repr

/-- Outcome of the `insert` issued by the create-if-absent fallback. -/
inductive InsertResult where
  | ok
  | fail (msg : String)
  deriving DecidableEq, Repr

/-- Embedding of `loadList` from `useSharedList`. The second component of
the result is the row written to the remote store (`insert([{id, items: []}])`),
present exactly when the create-if-absent fallback ran and succeeded.
A found row is mirrored as-is; a not-found fetch inserts an empty list
under the requested id and mirrors it with no error; only genuine fetch or
insert failures reach the catch block and set the error field. -/
def loadList (listId ts : String) (fetch : FetchResult) (ins : InsertResult)
    (st : SharedState) : SharedState × Option (String × List GroceryItem) :=
  match fetch with
  | FetchResult.found row =>
      ({ list := some { id := row.id, items := row.items.getD [], updated_at := row.updated_at },
         error := none }, none)
  | FetchResult.notFound =>
      match ins with
      | InsertResult.ok =>
          ({ list := some { id := listId, items := [], updated_at := ts }, error := none },
           some (listId, []))
      | InsertResult.fail msg => ({ list := st.list, error := some msg }, none)
  | FetchResult.failure msg => ({ list := st.list, error := some msg }, none)

/-! ### Helper lemmas and concrete fixtures -/

/-- Folding the total over a mapped list equals folding over the original
list whenever the map preserves price and quantity, for any accumulator. -/
theorem foldlTotal_map (f : GroceryItem → GroceryItem)
    (hf : ∀ it, (f it).price = it.price ∧ (f it).quantity = it.quantity) :
    ∀ (l : List GroceryItem) (a : ℚ),
      (l.map f).foldl (fun sum item => sum + item.price * (item.quantity : ℚ)) a =
        l.foldl (fun sum item => sum + item.price * (item.quantity : ℚ)) a := by
  intro l
  induction l with
  | nil => intro a; rfl
  | cons x xs ih =>
    intro a
    simp only [List.map_cons, List.foldl_cons, (hf x).1, (hf x).2, ih]

/-- Maps that only touch `name` or `checked` leave the computed total
unchanged. -/
theorem calculateTotal_map (f : GroceryItem → GroceryItem)
    (hf : ∀ it, (f it).price = it.price ∧ (f it).quantity = it.quantity)
    (l : List GroceryItem) :
    calculateTotal (l.map f) = calculateTotal l :=
  foldlTotal_map f hf l 0

/-- The total-derivation invariant of the data model. -/
def TotalInv (st : ShoppingList) : Prop :=
  st.total = calculateTotal st.items

/-- Quantity bound of the data model: every item has quantity at least 1. -/
def QuantitiesOk (st : ShoppingList) : Prop :=
  ∀ it ∈ st.items, 1 ≤ it.quantity

/-- A concrete list used by witnesses: one unchecked item, invariant
holding. -/
def wList : ShoppingList :=
  { id := "L1", name := "",
    items := [{ id := "a1", name := "Pao", price := 2, quantity := 3,
                createdAt := "t0", checked := false }],
    createdAt := "t0", total := 6 }

/-! ### C2 — the derived total never drifts -/

/-- C2: after every mutation of the item collection (adding an item,
updating a quantity, updating a price — by either price handler — deleting
an item, toggling a check, renaming, and applying a remote update), the
list's `total` field equals the sum over all current items of price times
quantity; no operation lets the total drift from this recomputation. -/
theorem total_never_drifts (st st2 : ShoppingList) (h : AppStep st st2)
    (hinv : TotalInv st) : TotalInv st2 := by
  cases h with
  | add newName itemData fid ts =>
    unfold TotalInv addItem
    dsimp only
    split
    · exact hinv
    · split
      · exact hinv
      · rfl
  | quantity id inc => exact rfl
  | price id s => exact rfl
  | priceKey id s => exact rfl
  | priceInput id s => exact rfl
  | toggle id =>
    unfold TotalInv toggleItemCheck
    dsimp only
    rw [calculateTotal_map]
    · exact hinv
    · intro it
      dsimp only
      split
      · exact ⟨rfl, rfl⟩
      · exact ⟨rfl, rfl⟩
  | edit eid name =>
    unfold TotalInv saveEdit
    split
    · exact hinv
    · split
      · exact hinv
      · dsimp only
        rw [calculateTotal_map]
        · exact hinv
        · intro it
          dsimp only
          split
          · exact ⟨rfl, rfl⟩
          · exact ⟨rfl, rfl⟩
  | del id => exact rfl
  | remote uid e hsnap =>
    unfold TotalInv handleRemoteUpdate
    split
    · exact hinv
    · split
      · rename_i listId item heq
        split
        · split
          · exact hinv
          · rfl
        · exact hinv
      · rename_i listId item heq
        split
        · rfl
        · exact hinv
      · rename_i listId itemId heq
        split
        · rfl
        · exact hinv
      · rename_i l heq
        split
        · exact hsnap l heq
        · exact hinv

/-- Witness for C2 at a concrete list and step. -/
theorem total_never_drifts_witness :
    TotalInv (updateQuantity wList "a1" true) :=
  total_never_drifts wList (updateQuantity wList "a1" true)
    (AppStep.quantity wList "a1" true) (by norm_num [TotalInv, wList, calculateTotal])

/-! ### C9 — data-model bounds under mutation -/

/-- The per-item quantity transformation never produces a quantity below 1
from a quantity that is at least 1. -/
theorem uqItem_quantity (id : String) (inc : Bool) (a : GroceryItem)
    (h1 : 1 ≤ a.quantity) : 1 ≤ (uqItem id inc a).quantity := by
  cases inc with
  | false =>
    unfold uqItem
    simp only [Bool.false_eq_true, if_false]
    split
    · split
      · exact h1
      · rename_i hlt
        dsimp only
        omega
    · exact h1
  | true =>
    unfold uqItem
    simp only [if_true]
    split
    · split
      · exact h1
      · rename_i hlt
        dsimp only
        omega
    · exact h1

/-- Mapping a quantity-preserving transformation over a list keeps the
quantity bound. -/
theorem mem_map_quantity (g : GroceryItem → GroceryItem)
    (hg : ∀ a, 1 ≤ a.quantity → 1 ≤ (g a).quantity)
    (l : List GroceryItem) (hl : ∀ it ∈ l, 1 ≤ it.quantity) :
    ∀ it ∈ l.map g, 1 ≤ it.quantity := by
  intro it hit
  obtain ⟨a, ha, rfl⟩ := List.mem_map.mp hit
  exact hg a (hl a ha)

/-- Fixture for C9: a list with one unchecked item of quantity 2. -/
def c9List : ShoppingList :=
  { id := "L2", name := "",
    items := [{ id := "p1", name := "Eggs", price := 0, quantity := 2,
                createdAt := "t", checked := false }],
    createdAt := "t", total := 0 }

/-- Counterexample to C9 as stated: committing the price input `-5` with
the Enter key stores the negative price `-5` on the item —
`parseFloat('-5'.replace(',', '.')) || 0` is `-5`, and `updateQuantity`'s
code path is the only guarded one; prices are not clamped to be
non-negative. -/
theorem negative_price_after_enter_commit :
    parseFloatOrZero (commaToDot "-5") = -5 ∧
    (handlePriceKeyPress c9List "p1" "-5").items =
      [{ id := "p1", name := "Eggs", price := -5, quantity := 2, createdAt := "t",
         checked := true }] ∧
    (-5 : ℚ) < 0 := by
  have h1 : parseFloatQ (commaToDot "-5") =
      some (-(((5 : ℕ) : ℚ) + ((0 : ℕ) : ℚ) / (10 : ℚ) ^ (0 : ℕ))) := rfl
  have hp : parseFloatOrZero (commaToDot "-5") = -5 := by
    unfold parseFloatOrZero
    rw [h1, Option.getD_some]
    norm_num
  refine ⟨hp, ?_, by norm_num⟩
  show (c9List.items.map _) = _
  simp only [c9List, List.map_cons, List.map_nil, hp]
  norm_num

/-- C9 (amended): every local mutation of the item collection — adding an
item, incrementing or decrementing a quantity, every price update
(including the Enter-key commit and the live input handler), deleting and
toggling — preserves the bound `quantity ≥ 1` on every item. The price
clause of the original claim does not hold: the operations that parse a
raw price string (`updatePrice`, `handlePriceKeyPress`) can store a
negative price when the string denotes a negative number. -/
theorem quantity_bound_preserved (st : ShoppingList) (hq : QuantitiesOk st)
    (newName : String) (itemData : Option ItemData) (fid ts id s : String) (inc : Bool) :
    QuantitiesOk (addItem st newName itemData fid ts).1 ∧
    QuantitiesOk (updateQuantity st id inc) ∧
    QuantitiesOk (updatePrice st id s) ∧
    QuantitiesOk (handlePriceKeyPress st id s) ∧
    QuantitiesOk (handlePriceInputChange st id s) ∧
    QuantitiesOk (deleteItem st id) ∧
    QuantitiesOk (toggleItemCheck st id) := by
  refine ⟨?_, ?_, ?_, ?_, ?_, ?_, ?_⟩
  · unfold addItem
    dsimp only
    split
    · exact hq
    · split
      · exact hq
      · intro it hit
        rcases List.mem_append.mp hit with hold | hnew
        · exact hq it hold
        · rw [List.mem_singleton.mp hnew]
  · exact fun it hit => mem_map_quantity _ (uqItem_quantity id inc) _ hq it hit
  · refine fun it hit => mem_map_quantity _ ?_ _ hq it hit
    intro a ha
    dsimp only
    split
    · exact ha
    · exact ha
  · refine fun it hit => mem_map_quantity _ ?_ _ hq it hit
    intro a ha
    dsimp only
    split
    · exact ha
    · exact ha
  · refine fun it hit => mem_map_quantity _ ?_ _ hq it hit
    intro a ha
    dsimp only
    split
    · exact ha
    · exact ha
  · intro it hit
    exact hq it (List.mem_of_mem_filter hit)
  · refine fun it hit => mem_map_quantity _ ?_ _ hq it hit
    intro a ha
    dsimp only
    split
    · exact ha
    · exact ha

/-- Witness for C9 (amended) at the concrete fixture list. -/
theorem quantity_bound_preserved_witness :
    QuantitiesOk (updateQuantity c9List "p1" false) :=
  (quantity_bound_preserved c9List
    (by intro it hit; simp only [c9List, List.mem_singleton] at hit; subst hit; decide)
    "x" none "n" "t" "p1" "s" false).2.1

/-! ### C3 — decrement at quantity 1 is a deletion request -/

/-- C3: a decrement request on an item with quantity 1 changes neither the
item nor the list — it only opens the deletion confirmation modal for that
item; `updateQuantity` itself leaves a quantity-1 item untouched on
decrement; for quantity > 1 a decrement subtracts exactly 1 and an
increment always adds 1; removal happens only through the confirmed
modal (`handleDelete`), which deletes exactly the items with the confirmed
id and recomputes the total. -/
theorem decrement_at_one_is_delete_request (st : ShoppingList) (modal : DeleteModalState)
    (item : GroceryItem) (h1 : item.quantity = 1) :
    (minusButtonClick st modal item).1 = st ∧
    (minusButtonClick st modal item).2 =
      { isOpen := true, itemId := some item.id, itemName := item.name } ∧
    uqItem item.id false item = item ∧
    (item ∈ st.items → item ∈ (updateQuantity st item.id false).items) ∧
    (∀ it : GroceryItem, 1 < it.quantity →
      uqItem it.id false it = { it with quantity := it.quantity - 1 }) ∧
    (∀ it : GroceryItem, 1 ≤ it.quantity →
      uqItem it.id true it = { it with quantity := it.quantity + 1 }) ∧
    handleDelete st { isOpen := true, itemId := some item.id, itemName := item.name } =
      (deleteItem st item.id, { isOpen := false, itemId := none, itemName := "" }) ∧
    (deleteItem st item.id).items = st.items.filter (fun it => it.id != item.id) ∧
    (deleteItem st item.id).total = calculateTotal (deleteItem st item.id).items := by
  have huq : uqItem item.id false item = item := by
    unfold uqItem
    rw [if_pos rfl]
    simp only [Bool.false_eq_true, if_false]
    rw [if_pos (by omega)]
  refine ⟨?_, ?_, huq, ?_, ?_, ?_, rfl, rfl, rfl⟩
  · unfold minusButtonClick
    rw [if_pos h1]
  · unfold minusButtonClick confirmDelete
    rw [if_pos h1]
  · intro hmem
    exact List.mem_map.mpr ⟨item, hmem, huq⟩
  · intro it hgt
    unfold uqItem
    rw [if_pos rfl]
    simp only [Bool.false_eq_true, if_false]
    rw [if_neg (by omega)]
  · intro it hge
    unfold uqItem
    rw [if_pos rfl]
    simp only [eq_self_iff_true, if_true]
    rw [if_neg (by omega)]

/-- Fixture for C3: a quantity-1 item inside a one-item list. -/
def c3Item : GroceryItem :=
  { id := "q1", name := "Sal", price := 0, quantity := 1, createdAt := "t", checked := false }

/-- Fixture list holding `c3Item`. -/
def c3List : ShoppingList :=
  { id := "L3", name := "", items := [c3Item], createdAt := "t", total := 0 }

/-- Witness for C3 at a concrete quantity-1 item. -/
theorem decrement_at_one_is_delete_request_witness :
    (minusButtonClick c3List { isOpen := false, itemId := none, itemName := "" } c3Item).1 =
      c3List :=
  (decrement_at_one_is_delete_request c3List
    { isOpen := false, itemId := none, itemName := "" } c3Item rfl).1

/-! ### C8 — self-echo suppression -/

/-- C8: a realtime event whose declared origin equals the local session's
`userId` leaves the in-memory list state unchanged, whatever its payload. -/
theorem self_echo_ignored (uid : String) (d : RemoteEventData) (st : ShoppingList) :
    handleRemoteUpdate uid { userId := uid, data := d } st = st := by
  unfold handleRemoteUpdate
  rw [if_pos rfl]

/-! ### C4 — duplicate-name detection and checked items -/

/-- Fixture for C4: a list whose only item is CHECKED and named `Milk`. -/
def c4List : ShoppingList :=
  { id := "L4", name := "",
    items := [{ id := "a1", name := "Milk", price := 0, quantity := 1,
                createdAt := "t0", checked := true }],
    createdAt := "t0", total := 0 }

/-- Counterexample to C4 as stated: the duplicate search of `addItem`
scans ALL items (`currentList.items.find(...)`), not only unchecked ones;
adding `milk` when the only case-insensitive match is the CHECKED item
`Milk` does NOT insert — the list is returned unchanged and nothing is
persisted, where the claim requires an insertion. -/
theorem checked_item_blocks_insert :
    (∀ it ∈ c4List.items, it.checked = true) ∧
    addItem c4List "milk" none "a2" "t1" = (c4List, none) := by
  constructor
  · intro it hit
    simp only [c4List] at hit
    rw [List.mem_singleton.mp hit]
  · rfl

/-- C4 (amended): the duplicate search covers every item, checked or not —
an add request typed into the search box (no explicit `itemData`) whose
trimmed name case-insensitively matches the name of ANY existing item is
not inserted: the list state and the remote store are left unchanged. -/
theorem dup_match_blocks_insert (st : ShoppingList) (name fid ts : String)
    (h : ∃ it ∈ st.items, jsToLower it.name = jsToLower (jsTrim name)) :
    addItem st name none fid ts = (st, none) := by
  obtain ⟨it, hmem, heq⟩ := h
  unfold addItem
  simp only [addItemName]
  by_cases hempty : jsTrim name = ""
  · rw [if_pos hempty]
  · rw [if_neg hempty]
    have hfind : (st.items.find? (fun item => jsToLower item.name == jsToLower (jsTrim name))).isSome := by
      exact List.find?_isSome.mpr ⟨it, hmem, beq_iff_eq.mpr heq⟩
    rw [if_pos (by simp [hfind])]

/-- Witness for C4 (amended): `MILK` matches the checked `Milk` item. -/
theorem dup_match_blocks_insert_witness :
    addItem c4List "MILK" none "a9" "t9" = (c4List, none) :=
  dup_match_blocks_insert c4List "MILK" "a9" "t9"
    ⟨{ id := "a1", name := "Milk", price := 0, quantity := 1, createdAt := "t0", checked := true },
     by simp [c4List], rfl⟩

/-! ### C10 — empty names and defaults of inserted items -/

/-- Fixture for C10: an empty current list. -/
def c10Empty : ShoppingList :=
  { id := "L10", name := "", items := [], createdAt := "t", total := 0 }

/-- Counterexample to C10 as stated: an explicit `itemData` whose name is
the single space `' '` — empty after trimming — is truthy in JavaScript,
so `itemData?.name || newItemName.trim()` keeps it verbatim and `addItem`
inserts an item named `' '` instead of being a no-op. -/
theorem whitespace_itemdata_inserts :
    jsTrim " " = "" ∧
    ((addItem c10Empty "" (some { name := " ", price := 2 }) "n1" "t1").1).items.length = 1 ∧
    ((addItem c10Empty "" (some { name := " ", price := 2 }) "n1" "t1").2).isSome = true := by
  exact ⟨rfl, rfl, rfl⟩

/-- C10 (amended): a search-box add request (no explicit `itemData`) whose
name is empty or whitespace-only after trimming is a complete no-op — the
list state is unchanged and nothing is written to the remote store — and
every item that is actually inserted starts with quantity 1, `checked`
false, and price `itemData?.price || 0`, i.e. price 0 when no price is
supplied. A whitespace-only name supplied through an explicit `itemData`
bypasses trimming and is inserted (see the counterexample). -/
theorem empty_name_add_is_noop (st st2 : ShoppingList) (name name2 fid ts : String)
    (itemData : Option ItemData) (hname : jsTrim name = "") :
    addItem st name none fid ts = (st, none) ∧
    (∀ it, (addItem st2 name2 itemData fid ts).2 = some it →
      it.quantity = 1 ∧ it.checked = false ∧ it.price = addItemPrice itemData) ∧
    addItemPrice none = 0 := by
  refine ⟨?_, ?_, rfl⟩
  · unfold addItem
    simp only [addItemName]
    rw [if_pos hname]
  · intro it hsome
    unfold addItem at hsome
    dsimp only at hsome
    split at hsome
    · exact Option.noConfusion hsome
    · split at hsome
      · exact Option.noConfusion hsome
      · have := Option.some.inj hsome
        subst this
        exact ⟨rfl, rfl, rfl⟩

/-- Witness for C10 (amended): whitespace search-box input changes nothing. -/
theorem empty_name_add_is_noop_witness :
    addItem c10Empty "  " none "n2" "t2" = (c10Empty, none) :=
  (empty_name_add_is_noop c10Empty c10Empty "  " "x" "n2" "t2" none rfl).1

/-! ### C1 — stale remote snapshots -/

/-- Lexicographic order on character lists; on same-length ISO-8601
timestamp strings this coincides with chronological order. -/
def lexLt : List Char → List Char → Bool
  | [], [] => false
  | [], _ :: _ => true
  | _ :: _, [] => false
  | a :: as, b :: bs => if a < b then true else if b < a then false else lexLt as bs

/-- Chronological comparison of `updated_at` strings. -/
def tsOlder (a b : String) : Bool :=
  lexLt a.data b.data

/-- Fixture for C1: the in-memory shared list, last applied at
`2024-01-02`. -/
def listBefore : SharedList :=
  { id := "L",
    items := [{ id := "b1", name := "Bread", price := 2, quantity := 1,
                createdAt := "t", checked := false }],
    updated_at := "2024-01-02T00:00:00Z" }

/-- Fixture for C1: the stale row delivered by the subscription, with an
older server timestamp and different (empty) items. -/
def staleRow : DbRow :=
  { id := "L", items := some [], updated_at := "2024-01-01T00:00:00Z" }

/-- Fixture payload wrapping `staleRow` as an UPDATE notification. -/
def stalePayload : PgPayload :=
  { eventType := PgEventType.UPDATE, new := some staleRow }

/-- Counterexample to C1 as stated: the subscription handler of
`useSharedList` never consults timestamps — a snapshot strictly OLDER than
the last-applied state is applied wholesale and changes the in-memory
state, where the claim requires it to be ignored. -/
theorem stale_snapshot_overwrites_state :
    tsOlder staleRow.updated_at listBefore.updated_at = true ∧
    onPostgresChange stalePayload (some listBefore) ≠ some listBefore := by
  refine ⟨rfl, ?_⟩
  intro h
  have h2 := congrArg SharedList.items (Option.some.inj h)
  simp [listBefore, staleRow] at h2

/-- C1 (amended): the subscription handler applies EVERY non-DELETE
payload that carries a `new` row, replacing the in-memory list wholesale
regardless of how its timestamp compares to the last-applied state
(last-delivery-wins); only DELETE events and payloads without a `new` row
leave the state unchanged. -/
theorem snapshot_applied_wholesale (payload : PgPayload) (st : Option SharedList) :
    (∀ row, payload.new = some row → payload.eventType ≠ PgEventType.DELETE →
      onPostgresChange payload st =
        some { id := row.id, items := row.items.getD [], updated_at := row.updated_at }) ∧
    (payload.eventType = PgEventType.DELETE → onPostgresChange payload st = st) ∧
    (payload.new = none → onPostgresChange payload st = st) := by
  obtain ⟨et, pn⟩ := payload
  refine ⟨?_, ?_, ?_⟩
  · intro row hrow hne
    cases pn with
    | none => exact Option.noConfusion hrow
    | some r =>
      have : r = row := Option.some.inj hrow
      subst this
      unfold onPostgresChange
      dsimp only
      rw [if_neg hne]
  · intro hdel
    cases pn with
    | none => rfl
    | some r =>
      unfold onPostgresChange
      dsimp only
      rw [if_pos hdel]
  · intro hnone
    have : pn = none := hnone
    subst this
    rfl

/-- Witness for C1 (amended): the stale payload is applied wholesale. -/
theorem snapshot_applied_wholesale_witness :
    onPostgresChange stalePayload (some listBefore) =
      some { id := "L", items := [], updated_at := "2024-01-01T00:00:00Z" } :=
  (snapshot_applied_wholesale stalePayload (some listBefore)).1 staleRow rfl
    (by intro h; exact PgEventType.noConfusion h)

/-! ### C5 — persist-then-set in updateList -/

/-- Fixture for C5: hook state mirroring an empty shared list. -/
def c5Before : SharedState :=
  { list := some { id := "L5", items := [], updated_at := "t0" }, error := none }

/-- Fixture for C5: the item of the attempted edit. -/
def c5Item : GroceryItem :=
  { id := "m1", name := "Milk", price := 3, quantity := 1, createdAt := "t1", checked := false }

/-- Counterexample to C5 as stated: `updateList` awaits the remote persist
FIRST and calls `setList` only on success; when the persist fails, the
in-memory items are left at their previous value — the caller's next read
does NOT see the edited items, so there is no optimistic in-memory state
to keep; only the error field is set. -/
theorem persist_failure_keeps_old_items :
    (updateList (PersistResult.err "network error") [c5Item] "t1" c5Before).list =
      c5Before.list ∧
    (updateList (PersistResult.err "network error") [c5Item] "t1" c5Before).error =
      some "network error" ∧
    c5Before.list ≠ some { id := "L5", items := [c5Item], updated_at := "t1" } := by
  refine ⟨rfl, rfl, ?_⟩
  intro h
  have h2 := congrArg SharedList.items (Option.some.inj h)
  simp [c5Before] at h2

/-- C5 (amended): `updateList` issues the remote persist first; only a
successful persist updates the in-memory items (and `updated_at`), leaving
the error field alone; a failed persist leaves the in-memory items
unchanged and reports the failure through the error field. -/
theorem update_list_persist_first (l : SharedList) (items : List GroceryItem)
    (ts msg : String) (e : Option String) :
    (updateList PersistResult.ok items ts { list := some l, error := e }).list =
      some { l with items := items, updated_at := ts } ∧
    (updateList PersistResult.ok items ts { list := some l, error := e }).error = e ∧
    (updateList (PersistResult.err msg) items ts { list := some l, error := e }).list =
      some l ∧
    (updateList (PersistResult.err msg) items ts { list := some l, error := e }).error =
      some msg :=
  ⟨rfl, rfl, rfl, rfl⟩

/-! ### C6 — create-if-absent on load -/

/-- C6: loading a shared list resolves a not-found fetch by inserting an
empty list under the requested id and mirroring it as the loaded state
with no error; a found row also loads without error — `NotFound` itself is
never surfaced to the caller. -/
theorem notfound_creates_empty_list (listId ts : String) (st : SharedState) (row : DbRow)
    (ins : InsertResult) :
    loadList listId ts FetchResult.notFound InsertResult.ok st =
      ({ list := some { id := listId, items := [], updated_at := ts }, error := none },
       some (listId, [])) ∧
    (loadList listId ts (FetchResult.found row) ins st).1.error = none :=
  ⟨rfl, rfl⟩

/-! ### C7 — removal from the saved-lists history -/

/-- Fixture for C7: a saved list whose creation date the purge will read
as epoch 0. -/
def oldSaved : ShoppingList :=
  { id := "L7", name := "Lista 1", items := [], createdAt := "d0", total := 0 }

/-- Counterexample to C7 as stated: the mount-time purge effect removes
every saved list older than fifteen days with no user action — here a list
created at epoch 0 disappears when the purge runs at epoch
`fifteenDaysMs + 1`. -/
theorem purge_removes_without_user_delete :
    oldSaved ∈ [oldSaved] ∧
    applyListsOp (ListsOp.purge (fun _ => 0) (fifteenDaysMs + 1)) [oldSaved] = [] := by
  constructor
  · exact List.mem_singleton.mpr rfl
  · rfl

/-- C7 (amended): a saved list disappears from the history only through
the explicit delete action for its id, or through the automatic fifteen-day
purge when its creation date is at least fifteen days in the past; saving
never removes a list. -/
theorem saved_list_removal_causes (op : ListsOp) (ls : List ShoppingList) (l : ShoppingList)
    (hmem : l ∈ ls) (hgone : l ∉ applyListsOp op ls) :
    (∃ lid, op = ListsOp.deleteList lid ∧ l.id = lid) ∨
    (∃ f now, op = ListsOp.purge f now ∧ f l.createdAt ≤ now - fifteenDaysMs) := by
  cases op with
  | save l2 =>
    exact absurd (List.mem_append.mpr (Or.inl hmem)) hgone
  | deleteList lid =>
    left
    refine ⟨lid, rfl, ?_⟩
    by_contra hne
    exact hgone (List.mem_filter.mpr ⟨hmem, bne_iff_ne.mpr hne⟩)
  | purge f now =>
    right
    refine ⟨f, now, rfl, ?_⟩
    by_contra hlt
    push_neg at hlt
    exact hgone (List.mem_filter.mpr ⟨hmem, decide_eq_true hlt⟩)

/-- Witness for C7 (amended): deleting the fixture list by id. -/
theorem saved_list_removal_causes_witness :
    (∃ lid, ListsOp.deleteList "L7" = ListsOp.deleteList lid ∧ oldSaved.id = lid) ∨
    (∃ f now, ListsOp.deleteList "L7" = ListsOp.purge f now ∧
      f oldSaved.createdAt ≤ now - fifteenDaysMs) :=
  saved_list_removal_causes (ListsOp.deleteList "L7") [oldSaved] oldSaved
    (List.mem_singleton.mpr rfl)
    (by intro h; simp [applyListsOp, oldSaved] at h)
